import Mathlib

/-!
Shallow embedding of the map-to-geometry extraction and collision-resolution
core of `trae-shooting-rs` (src/collision.rs, src/main.rs, src/camera.rs).

Rust `f32` arithmetic is idealized as exact real arithmetic, in two layers.
The first layer works over `ℝ`, where Lean division by zero yields `0`;
every place the source can produce a `NaN` (the `normalize` of a zero
vector, the normal of a zero-length segment) is then modelled by the junk
value `0` and flagged in a comment.  For the properties that depend on the
behavior of that error path itself, a second, NaN-aware layer re-embeds the
same routines over `FVal := Option ℝ`, whose `none` models the f32 `NaN`
error value (comparisons with `NaN` are false, arithmetic propagates it);
the two layers are proved to agree whenever no `NaN` arises.
-/

namespace Shooting

/-- glam `Vec3`: a 3-component real vector. -/
@[ext]
structure Vec3 where
  x : ℝ
  y : ℝ
  z : ℝ

noncomputable instance : Add Vec3 :=
  ⟨fun a b => ⟨a.x + b.x, a.y + b.y, a.z + b.z⟩⟩

noncomputable instance : Sub Vec3 :=
  ⟨fun a b => ⟨a.x - b.x, a.y - b.y, a.z - b.z⟩⟩

/-- glam `Vec3 * f32` (componentwise scaling). -/
noncomputable instance : HMul Vec3 ℝ Vec3 :=
  ⟨fun v c => ⟨v.x * c, v.y * c, v.z * c⟩⟩

/-- glam `Vec3::dot`. -/
noncomputable def Vec3.dot (a b : Vec3) : ℝ :=
  a.x * b.x + a.y * b.y + a.z * b.z

/-- glam `Vec3::length_squared`. -/
noncomputable def Vec3.length_squared (v : Vec3) : ℝ :=
  v.x * v.x + v.y * v.y + v.z * v.z

/-- glam `Vec3::length`. -/
noncomputable def Vec3.length (v : Vec3) : ℝ :=
  Real.sqrt v.length_squared

/-- glam `Vec3::normalize` (each component divided by the length).  For the
zero vector Rust produces a `NaN` vector; the Lean model yields the junk
value `0/0 = 0` componentwise. -/
noncomputable def Vec3.normalize (v : Vec3) : Vec3 :=
  ⟨v.x / v.length, v.y / v.length, v.z / v.length⟩

/-- Rust `f32::clamp(self, lo, hi)`. -/
noncomputable def clampR (v lo hi : ℝ) : ℝ :=
  if v < lo then lo else if hi < v then hi else v

/-- Structure `WallCollider` from src/collision.rs.  The source field `end` is a Lean
keyword and is rendered `endp`. -/
structure WallCollider where
  start : Vec3
  endp : Vec3
  height : ℝ
  thickness : ℝ
  normal : Vec3

namespace WallCollider

/-- Constructor `WallCollider::new` (src/collision.rs:18-35).  The arrays `[f32; 3]` are
rendered as `Vec3` (index 0 ↦ `x`, 1 ↦ `y`, 2 ↦ `z`).  There is no guard for
`start == end`: the source divides by the segment length unconditionally
(`NaN` normal in Rust, junk `0` normal in this model). -/
noncomputable def new (s e : Vec3) (height thickness : ℝ) : WallCollider :=
  let dx := e.x - s.x
  let dz := e.z - s.z
  let length := Real.sqrt (dx * dx + dz * dz)
  let nx := -dz / length
  let nz := dx / length
  { start := s
    endp := e
    height := height
    thickness := thickness
    normal := ⟨nx, 0, nz⟩ }

variable (w : WallCollider) (position : Vec3)

/-- Value `wall_vec` as computed inside `check_collision` / `resolve_collision`. -/
noncomputable def wall_vec : Vec3 :=
  ⟨w.endp.x - w.start.x, 0, w.endp.z - w.start.z⟩

/-- Value `point_to_start` as computed inside `check_collision` / `resolve_collision`. -/
noncomputable def point_to_start : Vec3 :=
  ⟨position.x - w.start.x, 0, position.z - w.start.z⟩

/-- the clamped projection parameter `t` of both collision routines. -/
noncomputable def tClamped : ℝ :=
  clampR ((w.point_to_start position).dot w.wall_vec / (w.wall_vec).length_squared) 0 1

/-- Value `closest_point` of both collision routines. -/
noncomputable def closest_point : Vec3 :=
  ⟨w.start.x + w.tClamped position * (w.wall_vec).x, 0,
   w.start.z + w.tClamped position * (w.wall_vec).z⟩

/-- Value `distance_vec` of both collision routines. -/
noncomputable def distance_vec : Vec3 :=
  ⟨position.x - (w.closest_point position).x, 0,
   position.z - (w.closest_point position).z⟩

/-- Value `distance` of both collision routines. -/
noncomputable def distance : ℝ :=
  (w.distance_vec position).length

/-- Value `dot_product` of both collision routines (the signed side of the wall). -/
noncomputable def dot_product : ℝ :=
  (w.distance_vec position).dot w.normal

/-- Predicate `WallCollider::check_collision` (src/collision.rs:38-89) as a
proposition: the source returns `false` when `position.y > height` and
otherwise tests the two-sided thickness rule. -/
def check_collision (w : WallCollider) (position : Vec3) (radius : ℝ) : Prop :=
  position.y ≤ w.height ∧
    ((0 ≤ w.dot_product position ∧ w.distance position < radius) ∨
     (w.dot_product position < 0 ∧ w.distance position < radius + w.thickness))

open Classical in
/-- Function `WallCollider::resolve_collision` (src/collision.rs:92-158): early return
when there is no collision, otherwise push along `distance_vec.normalize()`
to the required clearance (`radius`, or `radius + thickness` on the back
side); the trailing `position` return covers the non-colliding branches. -/
noncomputable def resolve_collision (w : WallCollider) (position : Vec3) (radius : ℝ) : Vec3 :=
  if check_collision w position radius then
    if 0 ≤ w.dot_product position then
      if w.distance position < radius then
        position + (w.distance_vec position).normalize * (radius - w.distance position)
      else position
    else
      if w.distance position < radius + w.thickness then
        position + (w.distance_vec position).normalize * (radius + w.thickness - w.distance position)
      else position
  else position

end WallCollider

/-- Helper `create_wall_collider` (src/collision.rs:162-166): fixed 0.3 thickness. -/
noncomputable def create_wall_collider (s e : Vec3) (height : ℝ) : WallCollider :=
  WallCollider.new s e height (3 / 10)

/-! ## Grid model and the boundary-extraction loop (src/main.rs:331-410) -/

/-- The occupancy grid `map_data`: rows of `i32` cells (wall = 1, free = 0). -/
abbrev Grid := List (List ℤ)

/-- Source `map_height = map_data.len()` (src/main.rs:339). -/
def mapHeight (g : Grid) : ℕ := g.length

/-- Source `map_width`: the length of row 0 when the grid has rows, else 0
(src/main.rs:340). -/
def mapWidth (g : Grid) : ℕ :=
  if 0 < g.length then (g.getD 0 []).length else 0

/-- Cell access `map_data[y][x]`.  The source indexing panics out of bounds but every
access in the loop is in range; `getD`'s default is never reached there. -/
def cellVal (g : Grid) (y x : ℕ) : ℤ := (g.getD y []).getD x 0

/-- Source `wall_height = 4.0` (src/main.rs:335). -/
noncomputable def wall_height : ℝ := 4

/-- Source `cell_size = 2.0` (src/main.rs:336). -/
noncomputable def cell_size : ℝ := 2

/-- The collider pushed for an exposed north face (src/main.rs:362-371):
`start = [wall_x, 0, wall_z]`, `end = [wall_x + cell_size, 0, wall_z]`. -/
noncomputable def northFace (ox oz : ℝ) (x y : ℕ) : WallCollider :=
  create_wall_collider ⟨ox + x * cell_size, 0, oz + y * cell_size⟩
    ⟨ox + x * cell_size + cell_size, 0, oz + y * cell_size⟩ wall_height

/-- The collider pushed for an exposed south face (src/main.rs:374-383). -/
noncomputable def southFace (ox oz : ℝ) (x y : ℕ) : WallCollider :=
  create_wall_collider ⟨ox + x * cell_size, 0, oz + y * cell_size + cell_size⟩
    ⟨ox + x * cell_size + cell_size, 0, oz + y * cell_size + cell_size⟩ wall_height

/-- The collider pushed for an exposed west face (src/main.rs:386-395). -/
noncomputable def westFace (ox oz : ℝ) (x y : ℕ) : WallCollider :=
  create_wall_collider ⟨ox + x * cell_size, 0, oz + y * cell_size⟩
    ⟨ox + x * cell_size, 0, oz + y * cell_size + cell_size⟩ wall_height

/-- The collider pushed for an exposed east face (src/main.rs:398-407). -/
noncomputable def eastFace (ox oz : ℝ) (x y : ℕ) : WallCollider :=
  create_wall_collider ⟨ox + x * cell_size + cell_size, 0, oz + y * cell_size⟩
    ⟨ox + x * cell_size + cell_size, 0, oz + y * cell_size + cell_size⟩ wall_height

/-- The four conditional pushes for one wall cell `(x, y)` of the extraction
loop (src/main.rs:359-407), in source order north, south, west, east. -/
noncomputable def cellColliders (g : Grid) (ox oz : ℝ) (x y : ℕ) : List WallCollider :=
  (if y = 0 ∨ cellVal g (y - 1) x = 0 then [northFace ox oz x y] else []) ++
  (if y = mapHeight g - 1 ∨ cellVal g (y + 1) x = 0 then [southFace ox oz x y] else []) ++
  (if x = 0 ∨ cellVal g y (x - 1) = 0 then [westFace ox oz x y] else []) ++
  (if x = mapWidth g - 1 ∨ cellVal g y (x + 1) = 0 then [eastFace ox oz x y] else [])

/-- The whole extraction loop (src/main.rs:342-410): row-major iteration,
origin `(-garage_width/2, -garage_length/2)`, colliders pushed only for wall
cells. -/
noncomputable def gridColliders (g : Grid) : List WallCollider :=
  let ox : ℝ := -((mapWidth g : ℝ) * cell_size) / 2
  let oz : ℝ := -((mapHeight g : ℝ) * cell_size) / 2
  (List.range (mapHeight g)).flatMap fun y =>
    (List.range (mapWidth g)).flatMap fun x =>
      if cellVal g y x = 1 then cellColliders g ox oz x y else []

/-! ## Camera and the per-frame update (src/camera.rs, src/main.rs:747-761) -/

/-- Structure `Camera` (src/camera.rs:34-38). -/
structure Camera where
  position : Vec3
  yaw : ℝ
  pitch : ℝ

/-- Structure `CameraController` state (src/camera.rs:79-93). -/
structure CameraController where
  speed : ℝ
  sensitivity : ℝ
  forward : Bool
  backward : Bool
  left : Bool
  right : Bool
  left_stick_x : ℝ
  left_stick_y : ℝ
  right_stick_x : ℝ
  right_stick_y : ℝ
  mouse_move_x : ℝ
  mouse_move_y : ℝ

/-- The floor check ending `update_camera` (src/camera.rs:246-249):
`if camera.position.y < 1.0 { camera.position.y = 1.0 }`. -/
noncomputable def floorClamp (pos : Vec3) : Vec3 :=
  if pos.y < 1 then ⟨pos.x, 1, pos.z⟩ else pos

/-- Function `CameraController::update_camera` (src/camera.rs:197-250), with `dt`
already converted to seconds.  Returns the mutated camera together with the
mutated controller (the mouse accumulators are zeroed).  The final floor
check (`floorClamp`) is the last statement of the function. -/
noncomputable def CameraController.update_camera (s : CameraController) (camera : Camera)
    (dt : ℝ) : Camera × CameraController :=
  let forward := Vec3.normalize ⟨Real.sin camera.yaw, 0, Real.cos camera.yaw⟩
  let right := Vec3.normalize
    ⟨Real.sin (camera.yaw - Real.pi / 2), 0, Real.cos (camera.yaw - Real.pi / 2)⟩
  let pos := camera.position
  let pos := if s.forward then pos - forward * s.speed * dt else pos
  let pos := if s.backward then pos + forward * s.speed * dt else pos
  let pos := if s.right then pos - right * s.speed * dt else pos
  let pos := if s.left then pos + right * s.speed * dt else pos
  let pos :=
    if 1 / 10 < |s.left_stick_x| ∨ 1 / 10 < |s.left_stick_y| then
      pos - right * s.left_stick_x * s.speed * dt - forward * s.left_stick_y * s.speed * dt
    else pos
  let yaw := camera.yaw + s.right_stick_x * s.sensitivity * dt * 2 +
    s.mouse_move_x * s.sensitivity * dt * 2
  let pitch := camera.pitch + s.right_stick_y * s.sensitivity * dt * 2 +
    s.mouse_move_y * s.sensitivity * dt * 2
  let pitch := clampR pitch (-(Real.pi / 2) + 1 / 10) (Real.pi / 2 - 1 / 10)
  let pos := floorClamp pos
  (⟨pos, yaw, pitch⟩,
   { s with mouse_move_x := 0, mouse_move_y := 0 })

/-! ## Componentwise lemmas and evaluation helpers -/

@[simp] lemma Vec3.add_x (a b : Vec3) : (a + b).x = a.x + b.x := rfl

@[simp] lemma Vec3.add_y (a b : Vec3) : (a + b).y = a.y + b.y := rfl

@[simp] lemma Vec3.add_z (a b : Vec3) : (a + b).z = a.z + b.z := rfl

@[simp] lemma Vec3.sub_x (a b : Vec3) : (a - b).x = a.x - b.x := rfl

@[simp] lemma Vec3.sub_y (a b : Vec3) : (a - b).y = a.y - b.y := rfl

@[simp] lemma Vec3.sub_z (a b : Vec3) : (a - b).z = a.z - b.z := rfl

@[simp] lemma Vec3.smul_x (a : Vec3) (c : ℝ) : (a * c).x = a.x * c := rfl

@[simp] lemma Vec3.smul_y (a : Vec3) (c : ℝ) : (a * c).y = a.y * c := rfl

@[simp] lemma Vec3.smul_z (a : Vec3) (c : ℝ) : (a * c).z = a.z * c := rfl

/-- Closed-form evaluation of `Real.sqrt` at perfect squares. -/
lemma sqrt_eval {a b : ℝ} (hb : 0 ≤ b) (h : b * b = a) : Real.sqrt a = b := by
  rw [← h, Real.sqrt_mul_self hb]

lemma Vec3.length_squared_nonneg (v : Vec3) : 0 ≤ v.length_squared := by
  unfold Vec3.length_squared
  nlinarith [sq_nonneg v.x, sq_nonneg v.y, sq_nonneg v.z, sq_abs v.x]

lemma Vec3.length_nonneg (v : Vec3) : 0 ≤ v.length := Real.sqrt_nonneg _

lemma Vec3.length_mul_self (v : Vec3) : v.length * v.length = v.length_squared :=
  Real.mul_self_sqrt v.length_squared_nonneg

namespace WallCollider

@[simp] lemma wall_vec_y (w : WallCollider) : (w.wall_vec).y = 0 := rfl

@[simp] lemma distance_vec_y (w : WallCollider) (p : Vec3) : (w.distance_vec p).y = 0 := rfl

lemma distance_nonneg (w : WallCollider) (p : Vec3) : 0 ≤ w.distance p :=
  Real.sqrt_nonneg _

/-- When the horizontal distance is zero the whole distance vector is zero. -/
lemma distance_vec_eq_zero (w : WallCollider) (p : Vec3) (h : w.distance p = 0) :
    w.distance_vec p = ⟨0, 0, 0⟩ := by
  have hsq : (w.distance_vec p).length_squared = 0 := by
    have h0 := (w.distance_vec p).length_mul_self
    unfold distance at h
    rw [h] at h0
    linarith [h0]
  set v := w.distance_vec p with hv
  have hy : v.y = 0 := by rw [hv]; exact w.distance_vec_y p
  unfold Vec3.length_squared at hsq
  have hx : v.x = 0 := by nlinarith [sq_nonneg v.x, sq_nonneg v.z]
  have hz : v.z = 0 := by nlinarith [sq_nonneg v.x, sq_nonneg v.z]
  ext <;> simp [hx, hy, hz]

/-- The zero vector normalizes to the junk value zero (Rust: `NaN`). -/
lemma normalize_zero : Vec3.normalize ⟨0, 0, 0⟩ = ⟨0, 0, 0⟩ := by
  unfold Vec3.normalize
  simp

/-- Any value `resolve_collision` returns has the shape
`position + distance_vec.normalize * k` for some `k`, or is `position`. -/
lemma resolve_cases (w : WallCollider) (p : Vec3) (r : ℝ) :
    w.resolve_collision p r = p ∨
      ∃ k : ℝ, w.resolve_collision p r = p + (w.distance_vec p).normalize * k := by
  unfold resolve_collision
  split
  · split
    · split
      · exact Or.inr ⟨_, rfl⟩
      · exact Or.inl rfl
    · split
      · exact Or.inr ⟨_, rfl⟩
      · exact Or.inl rfl
  · exact Or.inl rfl

/-- The pushed-out position keeps the query's `y` coordinate: the correction
vector's `y` component is `0 / length = 0`. -/
lemma resolve_y_eq (w : WallCollider) (p : Vec3) (r : ℝ) :
    (w.resolve_collision p r).y = p.y := by
  rcases w.resolve_cases p r with h | ⟨k, h⟩
  · rw [h]
  · rw [h]
    have hy : ((w.distance_vec p).normalize).y = 0 := by
      unfold Vec3.normalize
      simp
    simp [hy]

end WallCollider

lemma clampR_of_lt {v lo hi : ℝ} (h : v < lo) : clampR v lo hi = lo := by
  unfold clampR
  rw [if_pos h]

lemma clampR_of_gt {v lo hi : ℝ} (h1 : ¬ v < lo) (h2 : hi < v) : clampR v lo hi = hi := by
  unfold clampR
  rw [if_neg h1, if_pos h2]

lemma clampR_of_mem {v lo hi : ℝ} (h1 : ¬ v < lo) (h2 : ¬ hi < v) : clampR v lo hi = v := by
  unfold clampR
  rw [if_neg h1, if_neg h2]

namespace WallCollider

lemma distance_vec_x (w : WallCollider) (p : Vec3) :
    (w.distance_vec p).x = p.x - (w.start.x + w.tClamped p * (w.wall_vec).x) := rfl

lemma distance_vec_z (w : WallCollider) (p : Vec3) :
    (w.distance_vec p).z = p.z - (w.start.z + w.tClamped p * (w.wall_vec).z) := rfl

lemma normalize_distance_vec_x (w : WallCollider) (p : Vec3) :
    ((w.distance_vec p).normalize).x = (w.distance_vec p).x / w.distance p := rfl

lemma normalize_distance_vec_z (w : WallCollider) (p : Vec3) :
    ((w.distance_vec p).normalize).z = (w.distance_vec p).z / w.distance p := rfl

/-- Projection numerator of the pushed point, in terms of the original one. -/
lemma point_to_start_dot_pushed (w : WallCollider) (p : Vec3) (c : ℝ)
    (hd : w.distance p ≠ 0) :
    (w.point_to_start (p + (w.distance_vec p).normalize * (c - w.distance p))).dot w.wall_vec
      = (w.point_to_start p).dot w.wall_vec
        + ((c - w.distance p) / w.distance p)
          * ((w.point_to_start p).dot w.wall_vec
             - w.tClamped p * (w.wall_vec).length_squared) := by
  simp only [point_to_start, Vec3.dot, Vec3.length_squared, Vec3.add_x, Vec3.add_z,
    Vec3.smul_x, Vec3.smul_z, normalize_distance_vec_x, normalize_distance_vec_z,
    distance_vec_x, distance_vec_z, wall_vec]
  field_simp
  ring

/-- The clamped projection parameter is unchanged by pushing the point out
along `distance_vec` to clearance `c`. -/
lemma tClamped_pushed (w : WallCollider) (p : Vec3) {c : ℝ}
    (hd : w.distance p ≠ 0) (hdc : w.distance p < c) :
    w.tClamped (p + (w.distance_vec p).normalize * (c - w.distance p)) = w.tClamped p := by
  have hd0 : 0 < w.distance p := (w.distance_nonneg p).lt_of_ne (Ne.symm hd)
  have hq : w.tClamped (p + (w.distance_vec p).normalize * (c - w.distance p))
      = clampR (((w.point_to_start p).dot w.wall_vec
          + ((c - w.distance p) / w.distance p)
            * ((w.point_to_start p).dot w.wall_vec
               - w.tClamped p * (w.wall_vec).length_squared))
          / (w.wall_vec).length_squared) 0 1 := by
    unfold tClamped
    rw [point_to_start_dot_pushed w p c hd]
    rfl
  have hp : w.tClamped p
      = clampR ((w.point_to_start p).dot w.wall_vec / (w.wall_vec).length_squared) 0 1 := rfl
  set D := (w.point_to_start p).dot w.wall_vec with hD
  set L := (w.wall_vec).length_squared with hL
  set s := (c - w.distance p) / w.distance p with hs
  have hspos : 0 < s := div_pos (by linarith) hd0
  rcases ((w.wall_vec).length_squared_nonneg).lt_or_eq with hLpos | hL0
  · rw [hq, hp]
    by_cases h1 : D / L < 0
    · have hDneg : D < 0 := by
        by_contra hcon
        exact h1.not_le (div_nonneg (not_lt.mp hcon) hLpos.le)
      rw [clampR_of_lt h1]
      have harg : D + s * (D - 0 * L) = D * (1 + s) := by ring
      have hneg : D * (1 + s) < 0 := mul_neg_of_neg_of_pos hDneg (by linarith)
      rw [harg]
      exact clampR_of_lt (div_neg_of_neg_of_pos hneg hLpos)
    · by_cases h2 : 1 < D / L
      · have hLD : L < D := (one_lt_div hLpos).mp h2
        rw [clampR_of_gt h1 h2]
        have harg : D + s * (D - 1 * L) = D + s * (D - L) := by ring
        rw [harg]
        have hDpos : L < D + s * (D - L) := by nlinarith
        refine clampR_of_gt ?_ ?_
        · intro hcon
          have : D + s * (D - L) < 0 := (div_neg_iff.mp hcon).elim
            (fun h => absurd h.2 (not_lt.mpr hLpos.le)) (fun h => h.1)
          linarith
        · exact (one_lt_div hLpos).mpr hDpos
      · have hc1 : clampR (D / L) 0 1 = D / L := clampR_of_mem h1 h2
        rw [hc1]
        have harg : D + s * (D - D / L * L) = D := by
          rw [div_mul_cancel₀ D (ne_of_gt hLpos)]
          ring
        rw [harg]
        exact hc1
  · have h0 : (w.wall_vec).x * (w.wall_vec).x + (w.wall_vec).y * (w.wall_vec).y
        + (w.wall_vec).z * (w.wall_vec).z = 0 := by
      have h1 := hL0.symm
      simp only [Vec3.length_squared] at h1
      exact h1
    have hwx : (w.wall_vec).x = 0 ∧ (w.wall_vec).z = 0 := by
      constructor <;> nlinarith [sq_nonneg (w.wall_vec).x, sq_nonneg (w.wall_vec).z,
        sq_nonneg (w.wall_vec).y]
    have hD0 : D = 0 := by
      rw [hD]
      unfold Vec3.dot
      rw [hwx.1, hwx.2, wall_vec_y]
      ring
    rw [hq, hp, hD0]
    norm_num [clampR]

/-- Pushing the point out scales `distance_vec` by `c / distance`. -/
lemma distance_vec_pushed (w : WallCollider) (p : Vec3) {c : ℝ}
    (hd : w.distance p ≠ 0) (hdc : w.distance p < c) :
    w.distance_vec (p + (w.distance_vec p).normalize * (c - w.distance p))
      = ⟨(w.distance_vec p).x * (c / w.distance p), 0,
         (w.distance_vec p).z * (c / w.distance p)⟩ := by
  ext
  · simp only [distance_vec_x, tClamped_pushed w p hd hdc, Vec3.add_x, Vec3.smul_x,
      normalize_distance_vec_x]
    field_simp
    ring
  · rfl
  · simp only [distance_vec_z, tClamped_pushed w p hd hdc, Vec3.add_z, Vec3.smul_z,
      normalize_distance_vec_z]
    field_simp
    ring

/-- Pushing the point out leaves it at exactly the clearance distance. -/
lemma distance_pushed (w : WallCollider) (p : Vec3) {c : ℝ}
    (hd : w.distance p ≠ 0) (hdc : w.distance p < c) :
    w.distance (p + (w.distance_vec p).normalize * (c - w.distance p)) = c := by
  have hc0 : 0 < c := lt_of_le_of_lt (w.distance_nonneg p) hdc
  have h1 : w.distance (p + (w.distance_vec p).normalize * (c - w.distance p))
      = (Vec3.mk ((w.distance_vec p).x * (c / w.distance p)) 0
          ((w.distance_vec p).z * (c / w.distance p))).length :=
    congrArg Vec3.length (w.distance_vec_pushed p hd hdc)
  rw [h1]
  unfold Vec3.length
  apply sqrt_eval hc0.le
  have hd2 : w.distance p * w.distance p
      = (w.distance_vec p).x * (w.distance_vec p).x
        + (w.distance_vec p).z * (w.distance_vec p).z := by
    have hdd := (w.distance_vec p).length_mul_self
    simp only [Vec3.length_squared, distance_vec_y, mul_zero, zero_mul, add_zero,
      zero_add] at hdd
    exact hdd
  simp only [Vec3.length_squared]
  field_simp
  linear_combination (c * c) * hd2

/-- Pushing the point out scales the side dot product by `c / distance`. -/
lemma dot_pushed (w : WallCollider) (p : Vec3) {c : ℝ}
    (hd : w.distance p ≠ 0) (hdc : w.distance p < c) :
    w.dot_product (p + (w.distance_vec p).normalize * (c - w.distance p))
      = w.dot_product p * (c / w.distance p) := by
  unfold dot_product
  rw [distance_vec_pushed w p hd hdc]
  simp only [Vec3.dot, distance_vec_x, distance_vec_z, distance_vec_y]
  ring

open Classical in
/-- The clearance the source demands on the side the point is on: `radius`
on the normal side, `radius + thickness` on the back side. -/
noncomputable def clearanceOf (w : WallCollider) (p : Vec3) (r : ℝ) : ℝ :=
  if 0 ≤ w.dot_product p then r else r + w.thickness

lemma clearance_gt (w : WallCollider) (p : Vec3) (r : ℝ)
    (hc : w.check_collision p r) : w.distance p < w.clearanceOf p r := by
  unfold clearanceOf
  rcases hc.2 with ⟨h1, h2⟩ | ⟨h1, h2⟩
  · rw [if_pos h1]
    exact h2
  · rw [if_neg (not_le.mpr h1)]
    exact h2

lemma resolve_of_not_check (w : WallCollider) (p : Vec3) (r : ℝ)
    (hc : ¬ w.check_collision p r) : w.resolve_collision p r = p := by
  unfold resolve_collision
  rw [if_neg hc]

lemma resolve_of_check (w : WallCollider) (p : Vec3) (r : ℝ)
    (hc : w.check_collision p r) :
    w.resolve_collision p r
      = p + (w.distance_vec p).normalize * (w.clearanceOf p r - w.distance p) := by
  unfold resolve_collision clearanceOf
  rw [if_pos hc]
  by_cases hdot : 0 ≤ w.dot_product p
  · rw [if_pos hdot, if_pos hdot]
    have hlt : w.distance p < r := by
      rcases hc.2 with ⟨_, h⟩ | ⟨h1, _⟩
      · exact h
      · exact absurd hdot (not_le.mpr h1)
    rw [if_pos hlt]
  · rw [if_neg hdot, if_neg hdot]
    have hlt : w.distance p < r + w.thickness := by
      rcases hc.2 with ⟨h1, _⟩ | ⟨_, h⟩
      · exact absurd h1 hdot
      · exact h
    rw [if_pos hlt]

/-- Core separation fact: when the horizontal distance is nonzero, the
resolved position never collides with the same collider. -/
lemma not_check_resolve (w : WallCollider) (p : Vec3) (r : ℝ)
    (hd : w.distance p ≠ 0) :
    ¬ w.check_collision (w.resolve_collision p r) r := by
  by_cases hc : w.check_collision p r
  · have hdc := w.clearance_gt p r hc
    have hd0 : 0 < w.distance p := (w.distance_nonneg p).lt_of_ne (Ne.symm hd)
    have hc0 : 0 < w.clearanceOf p r := lt_of_le_of_lt (w.distance_nonneg p) hdc
    have hcd : 0 < w.clearanceOf p r / w.distance p := div_pos hc0 hd0
    rw [resolve_of_check w p r hc]
    intro hcon
    have hdist := w.distance_pushed p hd hdc
    have hdot := w.dot_pushed p hd hdc
    rcases hcon.2 with ⟨h1, h2⟩ | ⟨h1, h2⟩
    · rw [hdist] at h2
      rw [hdot] at h1
      by_cases hb : 0 ≤ w.dot_product p
      · have hcr : w.clearanceOf p r = r := by
          unfold clearanceOf
          rw [if_pos hb]
        linarith
      · have : w.dot_product p * (w.clearanceOf p r / w.distance p) < 0 :=
          mul_neg_of_neg_of_pos (not_le.mp hb) hcd
        linarith
    · rw [hdist] at h2
      rw [hdot] at h1
      by_cases hb : 0 ≤ w.dot_product p
      · have : 0 ≤ w.dot_product p * (w.clearanceOf p r / w.distance p) :=
          mul_nonneg hb hcd.le
        linarith
      · have hcr : w.clearanceOf p r = r + w.thickness := by
          unfold clearanceOf
          rw [if_neg hb]
        linarith
  · rw [resolve_of_not_check w p r hc]
    exact hc

/-- A point at horizontal distance zero is returned unchanged: the source
normalizes the zero vector (`NaN` in Rust, junk `0` here). -/
lemma resolve_of_distance_zero (w : WallCollider) (p : Vec3) (r : ℝ)
    (hd : w.distance p = 0) : w.resolve_collision p r = p := by
  rcases w.resolve_cases p r with h | ⟨k, h⟩
  · exact h
  · rw [h, w.distance_vec_eq_zero p hd, normalize_zero]
    ext <;> simp

end WallCollider

/-! ## A concrete collider: the spec's scenario wall (0,0,0)-(2,0,0), height 4 -/

/-- The spec's concrete scenario wall: `create_wall_collider([0,0,0], [2,0,0], 4.0)`
(thickness 0.3 from `create_wall_collider`). -/
noncomputable def wallA : WallCollider := create_wall_collider ⟨0, 0, 0⟩ ⟨2, 0, 0⟩ 4

lemma sqrt_four : Real.sqrt (4 : ℝ) = 2 := sqrt_eval (by norm_num) (by norm_num)

lemma sqrt_centi : Real.sqrt ((1 : ℝ) / 100) = 1 / 10 := sqrt_eval (by norm_num) (by norm_num)

lemma sqrt_hundred : Real.sqrt (100 : ℝ) = 10 := sqrt_eval (by norm_num) (by norm_num)

lemma wallA_eq : wallA = ⟨⟨0, 0, 0⟩, ⟨2, 0, 0⟩, 4, 3 / 10, ⟨0, 0, 1⟩⟩ := by
  unfold wallA create_wall_collider WallCollider.new
  norm_num [sqrt_four]

namespace WallCollider

lemma wallA_t1 : wallA.tClamped ⟨1, 0, 1 / 10⟩ = 1 / 2 := by
  rw [wallA_eq]
  unfold tClamped point_to_start wall_vec Vec3.dot Vec3.length_squared
  norm_num [clampR]

lemma wallA_dv1 : wallA.distance_vec ⟨1, 0, 1 / 10⟩ = ⟨0, 0, 1 / 10⟩ := by
  ext
  · rw [distance_vec_x, wallA_t1, wallA_eq]
    unfold wall_vec
    norm_num
  · rfl
  · rw [distance_vec_z, wallA_t1, wallA_eq]
    unfold wall_vec
    norm_num

lemma wallA_d1 : wallA.distance ⟨1, 0, 1 / 10⟩ = 1 / 10 := by
  unfold distance
  rw [wallA_dv1]
  unfold Vec3.length Vec3.length_squared
  norm_num [sqrt_centi, sqrt_hundred]

lemma wallA_dot1 : wallA.dot_product ⟨1, 0, 1 / 10⟩ = 1 / 10 := by
  unfold dot_product
  rw [wallA_dv1, wallA_eq]
  unfold Vec3.dot
  norm_num

lemma wallA_check1 : wallA.check_collision ⟨1, 0, 1 / 10⟩ (1 / 2) := by
  constructor
  · rw [wallA_eq]
    norm_num
  · left
    rw [wallA_d1, wallA_dot1]
    norm_num

lemma wallA_t2 : wallA.tClamped ⟨1, 0, -(1 / 10)⟩ = 1 / 2 := by
  rw [wallA_eq]
  unfold tClamped point_to_start wall_vec Vec3.dot Vec3.length_squared
  norm_num [clampR]

lemma wallA_dv2 : wallA.distance_vec ⟨1, 0, -(1 / 10)⟩ = ⟨0, 0, -(1 / 10)⟩ := by
  ext
  · rw [distance_vec_x, wallA_t2, wallA_eq]
    unfold wall_vec
    norm_num
  · rfl
  · rw [distance_vec_z, wallA_t2, wallA_eq]
    unfold wall_vec
    norm_num

lemma wallA_d2 : wallA.distance ⟨1, 0, -(1 / 10)⟩ = 1 / 10 := by
  unfold distance
  rw [wallA_dv2]
  unfold Vec3.length Vec3.length_squared
  norm_num [sqrt_centi, sqrt_hundred]

lemma wallA_dot2 : wallA.dot_product ⟨1, 0, -(1 / 10)⟩ = -(1 / 10) := by
  unfold dot_product
  rw [wallA_dv2, wallA_eq]
  unfold Vec3.dot
  norm_num

lemma wallA_check2 : wallA.check_collision ⟨1, 0, -(1 / 10)⟩ (1 / 2) := by
  constructor
  · rw [wallA_eq]
    norm_num
  · right
    rw [wallA_d2, wallA_dot2, wallA_eq]
    norm_num

lemma wallA_t3 : wallA.tClamped ⟨1, 2, 0⟩ = 1 / 2 := by
  rw [wallA_eq]
  unfold tClamped point_to_start wall_vec Vec3.dot Vec3.length_squared
  norm_num [clampR]

lemma wallA_dv3 : wallA.distance_vec ⟨1, 2, 0⟩ = ⟨0, 0, 0⟩ := by
  ext
  · rw [distance_vec_x, wallA_t3, wallA_eq]
    unfold wall_vec
    norm_num
  · rfl
  · rw [distance_vec_z, wallA_t3, wallA_eq]
    unfold wall_vec
    norm_num

lemma wallA_d3 : wallA.distance ⟨1, 2, 0⟩ = 0 := by
  unfold distance
  rw [wallA_dv3]
  unfold Vec3.length Vec3.length_squared
  norm_num

lemma wallA_dot3 : wallA.dot_product ⟨1, 2, 0⟩ = 0 := by
  unfold dot_product
  rw [wallA_dv3]
  unfold Vec3.dot
  norm_num

lemma wallA_check3 : wallA.check_collision ⟨1, 2, 0⟩ (1 / 2) := by
  constructor
  · rw [wallA_eq]
    norm_num
  · left
    rw [wallA_d3, wallA_dot3]
    norm_num

lemma wallA_lsq : (wallA.wall_vec).length_squared ≠ 0 := by
  rw [wallA_eq]
  unfold wall_vec Vec3.length_squared
  norm_num

end WallCollider

lemma normalize_z_tenth : Vec3.normalize ⟨0, 0, 1 / 10⟩ = ⟨0, 0, 1⟩ := by
  unfold Vec3.normalize Vec3.length Vec3.length_squared
  norm_num [sqrt_centi, sqrt_hundred]

lemma normalize_neg_z_tenth : Vec3.normalize ⟨0, 0, -(1 / 10)⟩ = ⟨0, 0, -1⟩ := by
  unfold Vec3.normalize Vec3.length Vec3.length_squared
  norm_num [sqrt_centi, sqrt_hundred]

lemma wallA_clearance1 : wallA.clearanceOf ⟨1, 0, 1 / 10⟩ (1 / 2) = 1 / 2 := by
  unfold WallCollider.clearanceOf
  rw [WallCollider.wallA_dot1]
  norm_num

lemma wallA_clearance2 : wallA.clearanceOf ⟨1, 0, -(1 / 10)⟩ (1 / 2) = 4 / 5 := by
  unfold WallCollider.clearanceOf
  rw [WallCollider.wallA_dot2, wallA_eq]
  norm_num

/-! ## Claims about single-collider resolution -/

/-- Claim C6: `resolve_collision` is idempotent for a single collider:
already-resolved points are fixed points. -/
theorem claim6_idempotent (w : WallCollider) (p : Vec3) (r : ℝ) :
    w.resolve_collision (w.resolve_collision p r) r = w.resolve_collision p r := by
  by_cases hd : w.distance p = 0
  · have h0 := w.resolve_of_distance_zero p r hd
    rw [h0]
    exact h0
  · exact (w.resolve_of_not_check (w.resolve_collision p r) r (w.not_check_resolve p r hd))

/-- Claim C7: a query point strictly above the collider's height never
collides and is returned unchanged by `resolve_collision`. -/
theorem claim7_height_gate (w : WallCollider) (p : Vec3) (r : ℝ)
    (h : w.height < p.y) :
    ¬ w.check_collision p r ∧ w.resolve_collision p r = p := by
  have hnc : ¬ w.check_collision p r := by
    intro hc
    exact absurd hc.1 (not_le.mpr h)
  exact ⟨hnc, w.resolve_of_not_check p r hnc⟩

/-- Witness for `claim7_height_gate` at the scenario wall (height 4) and a
point at `y = 5`. -/
theorem claim7_witness :
    wallA.height < (5 : ℝ) ∧
      (¬ wallA.check_collision ⟨1, 5, 0⟩ (1 / 2) ∧
        wallA.resolve_collision ⟨1, 5, 0⟩ (1 / 2) = ⟨1, 5, 0⟩) := by
  have h : wallA.height < (5 : ℝ) := by
    rw [wallA_eq]
    norm_num
  exact ⟨h, claim7_height_gate wallA ⟨1, 5, 0⟩ (1 / 2) h⟩

/-- Claim C8: the spec's concrete scenario: the wall `(0,0,0)`-`(2,0,0)`
with height 4 and thickness 0.3 pushes `(1,0,0.1)` with radius 0.5 to
`(1,0,0.5)`, and pushes `(1,0,-0.1)` (thickness side) to `(1,0,-0.8)`. -/
theorem claim8_concrete :
    wallA.resolve_collision ⟨1, 0, 1 / 10⟩ (1 / 2) = ⟨1, 0, 1 / 2⟩ ∧
      wallA.resolve_collision ⟨1, 0, -(1 / 10)⟩ (1 / 2) = ⟨1, 0, -(4 / 5)⟩ := by
  constructor
  · rw [wallA.resolve_of_check ⟨1, 0, 1 / 10⟩ (1 / 2) WallCollider.wallA_check1,
      wallA_clearance1, WallCollider.wallA_d1, WallCollider.wallA_dv1, normalize_z_tenth]
    ext <;> norm_num
  · rw [wallA.resolve_of_check ⟨1, 0, -(1 / 10)⟩ (1 / 2) WallCollider.wallA_check2,
      wallA_clearance2, WallCollider.wallA_d2, WallCollider.wallA_dv2, normalize_neg_z_tenth]
    ext <;> norm_num

/-- Claim C10: when the horizontal distance from the query point to its
closest point on the segment is nonzero, `resolve_collision` keeps the `y`
coordinate of the input exactly: the correction is purely horizontal. -/
theorem claim10_y_preserved (w : WallCollider) (p : Vec3) (r : ℝ)
    (hd : w.distance p ≠ 0) :
    (w.resolve_collision p r).y = p.y :=
  w.resolve_y_eq p r

/-- Witness for `claim10_y_preserved` at the scenario wall and `(1,0,0.1)`. -/
theorem claim10_witness :
    wallA.distance ⟨1, 0, 1 / 10⟩ ≠ 0 ∧
      (wallA.resolve_collision ⟨1, 0, 1 / 10⟩ (1 / 2)).y = (Vec3.mk 1 0 (1 / 10)).y := by
  have hd : wallA.distance ⟨1, 0, 1 / 10⟩ ≠ 0 := by
    rw [WallCollider.wallA_d1]
    norm_num
  exact ⟨hd, claim10_y_preserved wallA ⟨1, 0, 1 / 10⟩ (1 / 2) hd⟩

/-! ## Claim C2: spec-side characterization of `check_collision` -/

/-- Spec-side clamped projection parameter, written as the spec's §4.4 step 1
formula `t = clamp(dot(P - S.start, S.end - S.start) / |S.end - S.start|^2, 0, 1)`
in the horizontal plane (for comparison against the code's computation). -/
noncomputable def specT (w : WallCollider) (p : Vec3) : ℝ :=
  clampR (((p.x - w.start.x) * (w.endp.x - w.start.x)
      + (p.z - w.start.z) * (w.endp.z - w.start.z))
      / ((w.endp.x - w.start.x) * (w.endp.x - w.start.x)
         + (w.endp.z - w.start.z) * (w.endp.z - w.start.z))) 0 1

/-- Spec-side clamped projection `closest = S.start + t*(S.end - S.start)`
(horizontal coordinates). -/
noncomputable def specClosest (w : WallCollider) (p : Vec3) : ℝ × ℝ :=
  (w.start.x + specT w p * (w.endp.x - w.start.x),
   w.start.z + specT w p * (w.endp.z - w.start.z))

/-- Spec-side horizontal distance `|P - closest|`. -/
noncomputable def specDistance (w : WallCollider) (p : Vec3) : ℝ :=
  Real.sqrt ((p.x - (specClosest w p).1) * (p.x - (specClosest w p).1)
    + (p.z - (specClosest w p).2) * (p.z - (specClosest w p).2))

/-- Spec-side `side = dot(P - closest, S.normal)`. -/
noncomputable def specSide (w : WallCollider) (p : Vec3) : ℝ :=
  (p.x - (specClosest w p).1) * w.normal.x + (p.z - (specClosest w p).2) * w.normal.z

lemma specT_eq (w : WallCollider) (p : Vec3) : specT w p = w.tClamped p := by
  unfold specT WallCollider.tClamped WallCollider.point_to_start WallCollider.wall_vec
    Vec3.dot Vec3.length_squared
  congr 1
  ring

lemma specDistance_eq (w : WallCollider) (p : Vec3) : specDistance w p = w.distance p := by
  unfold specDistance specClosest
  rw [specT_eq]
  unfold WallCollider.distance Vec3.length
  congr 1
  simp only [Vec3.length_squared, WallCollider.distance_vec_x, WallCollider.distance_vec_z,
    WallCollider.distance_vec_y, WallCollider.wall_vec]
  ring

lemma specSide_eq (w : WallCollider) (p : Vec3) : specSide w p = w.dot_product p := by
  unfold specSide specClosest
  rw [specT_eq]
  unfold WallCollider.dot_product
  simp only [Vec3.dot, WallCollider.distance_vec_x, WallCollider.distance_vec_z,
    WallCollider.distance_vec_y, WallCollider.wall_vec]
  ring

/-- Claim C2: for a query point at or below the wall's height,
`check_collision(P, r)` holds iff, with `closest` the clamped projection of
`P` onto the segment in the horizontal plane, `distance = |P - closest|` and
`side = dot(P - closest, normal)`: either `side ≥ 0` and `distance < r`, or
`side < 0` and `distance < r + thickness`. -/
theorem claim2_check_iff (w : WallCollider) (p : Vec3) (r : ℝ)
    (hy : p.y ≤ w.height) :
    w.check_collision p r ↔
      ((0 ≤ specSide w p ∧ specDistance w p < r) ∨
       (specSide w p < 0 ∧ specDistance w p < r + w.thickness)) := by
  rw [specSide_eq, specDistance_eq]
  unfold WallCollider.check_collision
  exact and_iff_right hy

/-- Witness for `claim2_check_iff` at the scenario wall and `(1,0,0.1)`. -/
theorem claim2_witness :
    (Vec3.mk 1 0 (1 / 10)).y ≤ wallA.height ∧
      (wallA.check_collision ⟨1, 0, 1 / 10⟩ (1 / 2) ↔
        ((0 ≤ specSide wallA ⟨1, 0, 1 / 10⟩ ∧ specDistance wallA ⟨1, 0, 1 / 10⟩ < 1 / 2) ∨
         (specSide wallA ⟨1, 0, 1 / 10⟩ < 0 ∧
           specDistance wallA ⟨1, 0, 1 / 10⟩ < 1 / 2 + wallA.thickness))) := by
  have hy : (Vec3.mk 1 0 (1 / 10)).y ≤ wallA.height := by
    rw [wallA_eq]
    norm_num
  exact ⟨hy, claim2_check_iff wallA ⟨1, 0, 1 / 10⟩ (1 / 2) hy⟩

/-! ## Claim C5: the degenerate-segment construction guard -/

/-- Claim C5 (code bug evidence): the spec demands that construction guard
`start == end` and skip such segments, but `create_wall_collider` /
`WallCollider::new` have no guard: applied to `start == end` they return a
collider whose normal is computed by dividing by the zero segment length
(`NaN` in Rust f32, the junk value `0` in this model) instead of skipping. -/
theorem claim5_no_guard :
    (create_wall_collider ⟨0, 0, 0⟩ ⟨0, 0, 0⟩ 4).normal = ⟨0, 0, 0⟩ := by
  unfold create_wall_collider WallCollider.new
  norm_num [Real.sqrt_zero]

/-! ## Claim C4: orientation of the extracted normals -/

/-- A point of the collider's segment: `start + t * (end - start)`. -/
noncomputable def segPoint (w : WallCollider) (t : ℝ) : Vec3 :=
  w.start + (w.endp - w.start) * t

lemma new_normal_h (s e : Vec3) (h th : ℝ) (hx : e.x - s.x = 2) (hz : e.z - s.z = 0) :
    (WallCollider.new s e h th).normal = ⟨0, 0, 1⟩ := by
  unfold WallCollider.new
  simp only [hx, hz]
  norm_num [sqrt_four]

lemma new_normal_v (s e : Vec3) (h th : ℝ) (hx : e.x - s.x = 0) (hz : e.z - s.z = 2) :
    (WallCollider.new s e h th).normal = ⟨-1, 0, 0⟩ := by
  unfold WallCollider.new
  simp only [hx, hz]
  norm_num [sqrt_four]

lemma northFace_start (ox oz : ℝ) (x y : ℕ) :
    (northFace ox oz x y).start = ⟨ox + x * cell_size, 0, oz + y * cell_size⟩ := rfl

lemma northFace_endp (ox oz : ℝ) (x y : ℕ) :
    (northFace ox oz x y).endp = ⟨ox + x * cell_size + cell_size, 0, oz + y * cell_size⟩ := rfl

lemma southFace_start (ox oz : ℝ) (x y : ℕ) :
    (southFace ox oz x y).start = ⟨ox + x * cell_size, 0, oz + y * cell_size + cell_size⟩ := rfl

lemma southFace_endp (ox oz : ℝ) (x y : ℕ) :
    (southFace ox oz x y).endp
      = ⟨ox + x * cell_size + cell_size, 0, oz + y * cell_size + cell_size⟩ := rfl

lemma westFace_start (ox oz : ℝ) (x y : ℕ) :
    (westFace ox oz x y).start = ⟨ox + x * cell_size, 0, oz + y * cell_size⟩ := rfl

lemma westFace_endp (ox oz : ℝ) (x y : ℕ) :
    (westFace ox oz x y).endp = ⟨ox + x * cell_size, 0, oz + y * cell_size + cell_size⟩ := rfl

lemma eastFace_start (ox oz : ℝ) (x y : ℕ) :
    (eastFace ox oz x y).start = ⟨ox + x * cell_size + cell_size, 0, oz + y * cell_size⟩ := rfl

lemma eastFace_endp (ox oz : ℝ) (x y : ℕ) :
    (eastFace ox oz x y).endp
      = ⟨ox + x * cell_size + cell_size, 0, oz + y * cell_size + cell_size⟩ := rfl

lemma northFace_normal (ox oz : ℝ) (x y : ℕ) :
    (northFace ox oz x y).normal = ⟨0, 0, 1⟩ := by
  unfold northFace create_wall_collider
  refine new_normal_h _ _ _ _ ?_ ?_ <;> simp [cell_size]

lemma southFace_normal (ox oz : ℝ) (x y : ℕ) :
    (southFace ox oz x y).normal = ⟨0, 0, 1⟩ := by
  unfold southFace create_wall_collider
  refine new_normal_h _ _ _ _ ?_ ?_ <;> simp [cell_size]

lemma westFace_normal (ox oz : ℝ) (x y : ℕ) :
    (westFace ox oz x y).normal = ⟨-1, 0, 0⟩ := by
  unfold westFace create_wall_collider
  refine new_normal_v _ _ _ _ ?_ ?_ <;> simp [cell_size]

lemma eastFace_normal (ox oz : ℝ) (x y : ℕ) :
    (eastFace ox oz x y).normal = ⟨-1, 0, 0⟩ := by
  unfold eastFace create_wall_collider
  refine new_normal_v _ _ _ _ ?_ ?_ <;> simp [cell_size]

/-- Claim C4, amended: for the south and west faces the emitted normal does
point away from the generating wall cell (`dot(normal, q - p) > 0` for any
`q` beyond the face on the exposed free side and any `p` on the segment),
but for the north and east faces the normal points back into the wall cell:
`dot(normal, q - p) < 0` there. -/
theorem claim4_amended :
    (∀ (ox oz : ℝ) (x y : ℕ) (q : Vec3) (t : ℝ), 0 ≤ t → t ≤ 1 →
        q.z < oz + y * cell_size →
        Vec3.dot (northFace ox oz x y).normal (q - segPoint (northFace ox oz x y) t) < 0) ∧
    (∀ (ox oz : ℝ) (x y : ℕ) (q : Vec3) (t : ℝ), 0 ≤ t → t ≤ 1 →
        oz + y * cell_size + cell_size < q.z →
        0 < Vec3.dot (southFace ox oz x y).normal (q - segPoint (southFace ox oz x y) t)) ∧
    (∀ (ox oz : ℝ) (x y : ℕ) (q : Vec3) (t : ℝ), 0 ≤ t → t ≤ 1 →
        q.x < ox + x * cell_size →
        0 < Vec3.dot (westFace ox oz x y).normal (q - segPoint (westFace ox oz x y) t)) ∧
    (∀ (ox oz : ℝ) (x y : ℕ) (q : Vec3) (t : ℝ), 0 ≤ t → t ≤ 1 →
        ox + x * cell_size + cell_size < q.x →
        Vec3.dot (eastFace ox oz x y).normal (q - segPoint (eastFace ox oz x y) t) < 0) := by
  refine ⟨fun ox oz x y q t h0 h1 hq => ?_, fun ox oz x y q t h0 h1 hq => ?_,
    fun ox oz x y q t h0 h1 hq => ?_, fun ox oz x y q t h0 h1 hq => ?_⟩
  · rw [northFace_normal]
    unfold segPoint Vec3.dot
    rw [northFace_start, northFace_endp]
    simp only [Vec3.sub_x, Vec3.sub_y, Vec3.sub_z, Vec3.add_x, Vec3.add_y, Vec3.add_z,
      Vec3.smul_x, Vec3.smul_y, Vec3.smul_z]
    ring_nf
    nlinarith [hq]
  · rw [southFace_normal]
    unfold segPoint Vec3.dot
    rw [southFace_start, southFace_endp]
    simp only [Vec3.sub_x, Vec3.sub_y, Vec3.sub_z, Vec3.add_x, Vec3.add_y, Vec3.add_z,
      Vec3.smul_x, Vec3.smul_y, Vec3.smul_z]
    ring_nf
    nlinarith [hq]
  · rw [westFace_normal]
    unfold segPoint Vec3.dot
    rw [westFace_start, westFace_endp]
    simp only [Vec3.sub_x, Vec3.sub_y, Vec3.sub_z, Vec3.add_x, Vec3.add_y, Vec3.add_z,
      Vec3.smul_x, Vec3.smul_y, Vec3.smul_z]
    ring_nf
    nlinarith [hq]
  · rw [eastFace_normal]
    unfold segPoint Vec3.dot
    rw [eastFace_start, eastFace_endp]
    simp only [Vec3.sub_x, Vec3.sub_y, Vec3.sub_z, Vec3.add_x, Vec3.add_y, Vec3.add_z,
      Vec3.smul_x, Vec3.smul_y, Vec3.smul_z]
    ring_nf
    nlinarith [hq]

/-- Witness for `claim4_amended`: all four faces of the cell `(0,0)` with
origin `(0,0)`, each tested against a point just outside on its free side
and the segment start (`t = 0`). -/
theorem claim4_witness :
    Vec3.dot (northFace 0 0 0 0).normal (⟨1, 0, -1⟩ - segPoint (northFace 0 0 0 0) 0) < 0 ∧
      0 < Vec3.dot (southFace 0 0 0 0).normal (⟨1, 0, 3⟩ - segPoint (southFace 0 0 0 0) 0) ∧
      0 < Vec3.dot (westFace 0 0 0 0).normal (⟨-1, 0, 1⟩ - segPoint (westFace 0 0 0 0) 0) ∧
      Vec3.dot (eastFace 0 0 0 0).normal (⟨3, 0, 1⟩ - segPoint (eastFace 0 0 0 0) 0) < 0 := by
  refine ⟨claim4_amended.1 0 0 0 0 ⟨1, 0, -1⟩ 0 (by norm_num) (by norm_num) ?_,
    claim4_amended.2.1 0 0 0 0 ⟨1, 0, 3⟩ 0 (by norm_num) (by norm_num) ?_,
    claim4_amended.2.2.1 0 0 0 0 ⟨-1, 0, 1⟩ 0 (by norm_num) (by norm_num) ?_,
    claim4_amended.2.2.2 0 0 0 0 ⟨3, 0, 1⟩ 0 (by norm_num) (by norm_num) ?_⟩ <;>
    norm_num [cell_size]

/-- The extraction loop on the single-wall-cell grid `[[1]]` emits exactly
the four faces of cell `(0,0)` with origin `(-1,-1)`, in source order. -/
lemma gridColliders_single :
    gridColliders [[1]] = [northFace (-1) (-1) 0 0, southFace (-1) (-1) 0 0,
      westFace (-1) (-1) 0 0, eastFace (-1) (-1) 0 0] := by
  unfold gridColliders cellColliders
  norm_num [mapHeight, mapWidth, cellVal, cell_size, List.range_succ]

/-- Claim C4, counterexample: the north-face collider emitted by the
extraction loop for the grid `[[1]]` (wall cell spanning `z ∈ [-1,1]`, free
side `z < -1`) has `dot(normal, q - p) < 0` for the free-side point
`q = (0,0,-3/2)` and the segment midpoint `p`, refuting the claim that every
emitted normal points away from the generating wall cell. -/
theorem claim4_counterexample :
    northFace (-1) (-1) 0 0 ∈ gridColliders [[1]] ∧
      (-(3 / 2) : ℝ) < -1 + (0 : ℕ) * cell_size ∧
      (0 : ℝ) ≤ 1 / 2 ∧ (1 / 2 : ℝ) ≤ 1 ∧
      Vec3.dot (northFace (-1) (-1) 0 0).normal
        (⟨0, 0, -(3 / 2)⟩ - segPoint (northFace (-1) (-1) 0 0) (1 / 2)) < 0 := by
  refine ⟨?_, by norm_num [cell_size], by norm_num, by norm_num, ?_⟩
  · rw [gridColliders_single]
    simp
  · rw [northFace_normal]
    unfold segPoint Vec3.dot
    rw [northFace_start, northFace_endp]
    simp only [Vec3.sub_x, Vec3.sub_y, Vec3.sub_z, Vec3.add_x, Vec3.add_y, Vec3.add_z,
      Vec3.smul_x, Vec3.smul_y, Vec3.smul_z]
    norm_num [cell_size]

/-! ## Claim C3: the number of emitted colliders -/

/-- Spec-side: the 4-connected neighbor at integer coordinates `(ny, nx)` is
Free (cell value 0) or out of bounds. -/
def neighborFreeOrOOB (g : Grid) (ny nx : ℤ) : Bool :=
  if 0 ≤ ny ∧ ny < (mapHeight g : ℤ) ∧ 0 ≤ nx ∧ nx < (mapWidth g : ℤ) then
    cellVal g ny.toNat nx.toNat == 0
  else true

/-- Spec-side count of (wall cell, neighbor) pairs in which the neighbor is
Free or out of bounds. -/
def exposedPairCount (g : Grid) : ℕ :=
  ((List.range (mapHeight g)).map fun y =>
    ((List.range (mapWidth g)).map fun x =>
      if cellVal g y x = 1 then
        List.countP (fun pr => neighborFreeOrOOB g pr.1 pr.2)
          [((y : ℤ) - 1, (x : ℤ)), ((y : ℤ) + 1, (x : ℤ)),
           ((y : ℤ), (x : ℤ) - 1), ((y : ℤ), (x : ℤ) + 1)]
      else 0).sum).sum

/-- Every row of the grid has the full width (validated by the loader per
the spec). -/
def Rectangular (g : Grid) : Prop := ∀ row ∈ g, row.length = mapWidth g

/-- Every cell is 0 (Free) or 1 (Wall): an occupancy grid. -/
def BinaryGrid (g : Grid) : Prop := ∀ row ∈ g, ∀ c ∈ row, c = 0 ∨ c = 1

lemma length_flatMap {α β : Type} (l : List α) (f : α → List β) :
    (l.flatMap f).length = (l.map (fun a => (f a).length)).sum := by
  induction l with
  | nil => rfl
  | cons a l ih => simp [List.flatMap_cons, ih]

lemma north_cond (g : Grid) (x y : ℕ) (hy : y < mapHeight g) (hx : x < mapWidth g) :
    (y = 0 ∨ cellVal g (y - 1) x = 0) ↔ neighborFreeOrOOB g ((y : ℤ) - 1) (x : ℤ) = true := by
  unfold neighborFreeOrOOB
  by_cases hy0 : y = 0
  · subst hy0
    rw [if_neg (by omega)]
    simp
  · rw [if_pos (by omega)]
    have ht : ((y : ℤ) - 1).toNat = y - 1 := by omega
    have ht2 : ((x : ℤ)).toNat = x := by omega
    rw [ht, ht2]
    simp [hy0]

lemma south_cond (g : Grid) (x y : ℕ) (hy : y < mapHeight g) (hx : x < mapWidth g) :
    (y = mapHeight g - 1 ∨ cellVal g (y + 1) x = 0)
      ↔ neighborFreeOrOOB g ((y : ℤ) + 1) (x : ℤ) = true := by
  unfold neighborFreeOrOOB
  by_cases hylast : y = mapHeight g - 1
  · rw [if_neg (by omega)]
    simp [hylast]
  · rw [if_pos (by omega)]
    have ht : ((y : ℤ) + 1).toNat = y + 1 := by omega
    have ht2 : ((x : ℤ)).toNat = x := by omega
    rw [ht, ht2]
    simp [hylast]

lemma west_cond (g : Grid) (x y : ℕ) (hy : y < mapHeight g) (hx : x < mapWidth g) :
    (x = 0 ∨ cellVal g y (x - 1) = 0) ↔ neighborFreeOrOOB g ((y : ℤ)) ((x : ℤ) - 1) = true := by
  unfold neighborFreeOrOOB
  by_cases hx0 : x = 0
  · subst hx0
    rw [if_neg (by omega)]
    simp
  · rw [if_pos (by omega)]
    have ht : ((x : ℤ) - 1).toNat = x - 1 := by omega
    have ht2 : ((y : ℤ)).toNat = y := by omega
    rw [ht, ht2]
    simp [hx0]

lemma east_cond (g : Grid) (x y : ℕ) (hy : y < mapHeight g) (hx : x < mapWidth g) :
    (x = mapWidth g - 1 ∨ cellVal g y (x + 1) = 0)
      ↔ neighborFreeOrOOB g ((y : ℤ)) ((x : ℤ) + 1) = true := by
  unfold neighborFreeOrOOB
  by_cases hxlast : x = mapWidth g - 1
  · rw [if_neg (by omega)]
    simp [hxlast]
  · rw [if_pos (by omega)]
    have ht : ((x : ℤ) + 1).toNat = x + 1 := by omega
    have ht2 : ((y : ℤ)).toNat = y := by omega
    rw [ht, ht2]
    simp [hxlast]

/-- Per wall cell, the loop pushes exactly as many colliders as the cell has
neighbors that are Free or out of bounds. -/
lemma cellColliders_length (g : Grid) (ox oz : ℝ) (x y : ℕ)
    (hy : y < mapHeight g) (hx : x < mapWidth g) :
    (cellColliders g ox oz x y).length
      = List.countP (fun pr => neighborFreeOrOOB g pr.1 pr.2)
          [((y : ℤ) - 1, (x : ℤ)), ((y : ℤ) + 1, (x : ℤ)),
           ((y : ℤ), (x : ℤ) - 1), ((y : ℤ), (x : ℤ) + 1)] := by
  have h1 := north_cond g x y hy hx
  have h2 := south_cond g x y hy hx
  have h3 := west_cond g x y hy hx
  have h4 := east_cond g x y hy hx
  by_cases b1 : neighborFreeOrOOB g ((y : ℤ) - 1) (x : ℤ) = true <;>
    by_cases b2 : neighborFreeOrOOB g ((y : ℤ) + 1) (x : ℤ) = true <;>
      by_cases b3 : neighborFreeOrOOB g ((y : ℤ)) ((x : ℤ) - 1) = true <;>
        by_cases b4 : neighborFreeOrOOB g ((y : ℤ)) ((x : ℤ) + 1) = true <;>
          simp [cellColliders, List.countP_cons, h1, h2, h3, h4, b1, b2, b3, b4]

/-- Claim C3: for every rectangular occupancy grid, the boundary-extraction
loop emits exactly as many wall colliders as there are (wall cell, neighbor)
pairs whose 4-connected neighbor is Free or out of bounds.  In particular an
all-Free grid emits zero colliders (no wall cell contributes) and a single
isolated wall cell emits 4 (all four of its neighbors qualify; see the
witness). -/
theorem claim3_extraction_count (g : Grid)
    (hrect : Rectangular g) (hbin : BinaryGrid g) :
    (gridColliders g).length = exposedPairCount g := by
  unfold gridColliders exposedPairCount
  rw [length_flatMap]
  apply congrArg List.sum
  apply List.map_congr_left
  intro y hy
  rw [length_flatMap]
  apply congrArg List.sum
  apply List.map_congr_left
  intro x hx
  rw [List.mem_range] at hy hx
  by_cases hcell : cellVal g y x = 1
  · rw [if_pos hcell, if_pos hcell]
    exact cellColliders_length g _ _ x y hy hx
  · rw [if_neg hcell, if_neg hcell]
    rfl

/-- Witness for `claim3_extraction_count`: the single-wall-cell grid `[[1]]`
is rectangular and binary; the loop emits 4 colliders there and the
exposed-pair count is 4 (the isolated-wall-cell particular of the claim);
also the all-Free grid `[[0]]` yields count 0. -/
theorem claim3_witness :
    Rectangular [[1]] ∧ BinaryGrid [[1]] ∧
      (gridColliders [[1]]).length = exposedPairCount [[1]] ∧
      exposedPairCount [[1]] = 4 ∧ exposedPairCount [[0]] = 0 := by
  have hrect : Rectangular [[1]] := by
    unfold Rectangular
    decide
  have hbin : BinaryGrid [[1]] := by
    unfold BinaryGrid
    decide
  refine ⟨hrect, hbin, claim3_extraction_count [[1]] hrect hbin, by decide, by decide⟩

/-! ## Claim C9: the floor clamp and the per-frame position invariant -/

lemma floorClamp_y (pos : Vec3) : 1 ≤ (floorClamp pos).y := by
  unfold floorClamp
  split
  · norm_num
  · next h => exact le_of_not_lt h

/-- The camera controller's output position always sits at or above the
minimum eye height: the function ends with the floor check. -/
lemma update_camera_y (s : CameraController) (cam : Camera) (dt : ℝ) :
    1 ≤ ((s.update_camera cam dt).1).position.y :=
  floorClamp_y _

/-! ## NaN-aware layer: f32 scalars with the NaN error value

The degenerate zero-distance path of `resolve_collision` divides by zero
(glam's `normalize` of the zero vector), which in f32 yields `NaN`, and
every f32 comparison with `NaN` is false.  `FVal` models an f32 value:
`none` is `NaN`, `some a` a finite value.  Arithmetic is strict in `none`;
division by zero yields `none` (in every division the embedded routines
perform, a zero denominator forces a zero numerator, where f32 likewise
produces `NaN`: `0.0/0.0`, and `0.0 * inf` inside glam's normalize). -/

/-- Model of an f32 scalar: `none` is the `NaN` error value. -/
def FVal := Option ℝ

noncomputable def fadd : FVal → FVal → FVal
  | some a, some b => some (a + b)
  | _, _ => none

noncomputable def fsub : FVal → FVal → FVal
  | some a, some b => some (a - b)
  | _, _ => none

noncomputable def fmul : FVal → FVal → FVal
  | some a, some b => some (a * b)
  | _, _ => none

noncomputable def fdiv : FVal → FVal → FVal
  | some a, some b => if b = 0 then none else some (a / b)
  | _, _ => none

noncomputable def fsqrt : FVal → FVal
  | some a => if 0 ≤ a then some (Real.sqrt a) else none
  | none => none

/-- Comparison `<` on f32: false whenever an operand is `NaN`. -/
noncomputable def flt : FVal → FVal → Bool
  | some a, some b => decide (a < b)
  | _, _ => false

/-- Comparison `<=` on f32: false whenever an operand is `NaN`. -/
noncomputable def fle : FVal → FVal → Bool
  | some a, some b => decide (a ≤ b)
  | _, _ => false

/-- Rust `f32::clamp` on the model: `NaN` input propagates (neither
comparison fires, the value itself is returned). -/
noncomputable def fclamp (v : FVal) (lo hi : ℝ) : FVal :=
  if flt v (some lo) then some lo else if flt (some hi) v then some hi else v

@[simp] lemma fadd_some (a b : ℝ) : fadd (some a) (some b) = some (a + b) := rfl

@[simp] lemma fadd_none_left (b : FVal) : fadd none b = none := rfl

@[simp] lemma fadd_none_right (a : FVal) : fadd a none = none := by
  cases a <;> rfl

@[simp] lemma fsub_some (a b : ℝ) : fsub (some a) (some b) = some (a - b) := rfl

@[simp] lemma fsub_none_left (b : FVal) : fsub none b = none := rfl

@[simp] lemma fsub_none_right (a : FVal) : fsub a none = none := by
  cases a <;> rfl

@[simp] lemma fmul_some (a b : ℝ) : fmul (some a) (some b) = some (a * b) := rfl

@[simp] lemma fmul_none_left (b : FVal) : fmul none b = none := rfl

@[simp] lemma fmul_none_right (a : FVal) : fmul a none = none := by
  cases a <;> rfl

lemma fdiv_some {b : ℝ} (a : ℝ) (hb : b ≠ 0) : fdiv (some a) (some b) = some (a / b) := by
  simp only [fdiv]
  rw [if_neg hb]

@[simp] lemma fdiv_zero_den (a : ℝ) : fdiv (some a) (some 0) = none := by
  simp [fdiv]

@[simp] lemma fdiv_none_left (b : FVal) : fdiv none b = none := rfl

@[simp] lemma fdiv_none_right (a : FVal) : fdiv a none = none := by
  cases a <;> rfl

lemma fsqrt_some {a : ℝ} (ha : 0 ≤ a) : fsqrt (some a) = some (Real.sqrt a) := by
  simp only [fsqrt]
  rw [if_pos ha]

@[simp] lemma fsqrt_none : fsqrt none = none := rfl

@[simp] lemma flt_some (a b : ℝ) : flt (some a) (some b) = decide (a < b) := rfl

@[simp] lemma flt_none_left (b : FVal) : flt none b = false := rfl

@[simp] lemma flt_none_right (a : FVal) : flt a none = false := by
  cases a <;> rfl

@[simp] lemma fle_some (a b : ℝ) : fle (some a) (some b) = decide (a ≤ b) := rfl

@[simp] lemma fle_none_left (b : FVal) : fle none b = false := rfl

@[simp] lemma fle_none_right (a : FVal) : fle a none = false := by
  cases a <;> rfl

@[simp] lemma fclamp_none (lo hi : ℝ) : fclamp none lo hi = none := by
  unfold fclamp
  simp

lemma fclamp_some (a lo hi : ℝ) : fclamp (some a) lo hi = some (clampR a lo hi) := by
  unfold fclamp clampR
  by_cases h1 : a < lo <;> by_cases h2 : hi < a <;> simp [h1, h2]

/-- Model of a glam `Vec3` of f32 values. -/
@[ext]
structure FVec3 where
  x : FVal
  y : FVal
  z : FVal

/-- A finite real vector viewed as an f32 vector (no `NaN` components). -/
def liftV (v : Vec3) : FVec3 := ⟨some v.x, some v.y, some v.z⟩

@[simp] lemma liftV_x (v : Vec3) : (liftV v).x = some v.x := rfl

@[simp] lemma liftV_y (v : Vec3) : (liftV v).y = some v.y := rfl

@[simp] lemma liftV_z (v : Vec3) : (liftV v).z = some v.z := rfl

/-- Componentwise vector sum (glam `Vec3 + Vec3`). -/
noncomputable def fvadd (a b : FVec3) : FVec3 :=
  ⟨fadd a.x b.x, fadd a.y b.y, fadd a.z b.z⟩

/-- Componentwise scaling (glam `Vec3 * f32`). -/
noncomputable def fvmul (v : FVec3) (c : FVal) : FVec3 :=
  ⟨fmul v.x c, fmul v.y c, fmul v.z c⟩

/-- glam `Vec3::dot` over f32 values. -/
noncomputable def fdot (a b : FVec3) : FVal :=
  fadd (fadd (fmul a.x b.x) (fmul a.y b.y)) (fmul a.z b.z)

/-- glam `Vec3::length_squared` over f32 values. -/
noncomputable def flength_squared (v : FVec3) : FVal :=
  fadd (fadd (fmul v.x v.x) (fmul v.y v.y)) (fmul v.z v.z)

/-- glam `Vec3::length` over f32 values. -/
noncomputable def flength (v : FVec3) : FVal :=
  fsqrt (flength_squared v)

/-- glam `Vec3::normalize` over f32 values: dividing the zero vector by its
zero length gives the all-`NaN` vector, as in f32. -/
noncomputable def fnormalize (v : FVec3) : FVec3 :=
  ⟨fdiv v.x (flength v), fdiv v.y (flength v), fdiv v.z (flength v)⟩

lemma fdot_lift (a b : Vec3) : fdot (liftV a) (liftV b) = some (a.dot b) := rfl

lemma flength_squared_lift (v : Vec3) :
    flength_squared (liftV v) = some v.length_squared := rfl

lemma flength_lift (v : Vec3) : flength (liftV v) = some v.length := by
  unfold flength Vec3.length
  rw [flength_squared_lift, fsqrt_some v.length_squared_nonneg]

lemma fnormalize_lift (v : Vec3) (hv : v.length ≠ 0) :
    fnormalize (liftV v) = liftV v.normalize := by
  unfold fnormalize Vec3.normalize
  rw [flength_lift]
  ext <;> simp [fdiv_some _ hv, liftV]

namespace WallCollider

/-- NaN-aware `point_to_start` of the collision routines.  The collider's
own fields are finite (`some`-lifted); the `0.0` literal of `Vec3::new` is
`some 0`. -/
noncomputable def fpoint_to_start (w : WallCollider) (position : FVec3) : FVec3 :=
  ⟨fsub position.x (some w.start.x), some 0, fsub position.z (some w.start.z)⟩

/-- NaN-aware clamped projection parameter `t` of the collision routines
(`wall_vec` and `wall_length_squared` are computed from the collider's
finite fields, hence lifted). -/
noncomputable def ftClamped (w : WallCollider) (position : FVec3) : FVal :=
  fclamp (fdiv (fdot (w.fpoint_to_start position) (liftV w.wall_vec))
    (some (w.wall_vec).length_squared)) 0 1

/-- NaN-aware `closest_point` of the collision routines. -/
noncomputable def fclosest_point (w : WallCollider) (position : FVec3) : FVec3 :=
  ⟨fadd (some w.start.x) (fmul (w.ftClamped position) (some (w.wall_vec).x)), some 0,
   fadd (some w.start.z) (fmul (w.ftClamped position) (some (w.wall_vec).z))⟩

/-- NaN-aware `distance_vec` of the collision routines. -/
noncomputable def fdistance_vec (w : WallCollider) (position : FVec3) : FVec3 :=
  ⟨fsub position.x (w.fclosest_point position).x, some 0,
   fsub position.z (w.fclosest_point position).z⟩

/-- NaN-aware `distance` of the collision routines. -/
noncomputable def fdistance (w : WallCollider) (position : FVec3) : FVal :=
  flength (w.fdistance_vec position)

/-- NaN-aware `dot_product` of the collision routines. -/
noncomputable def fdot_product (w : WallCollider) (position : FVec3) : FVal :=
  fdot (w.fdistance_vec position) (liftV w.normal)

/-- NaN-aware `WallCollider::check_collision` (src/collision.rs:38-89); all
f32 comparisons with `NaN` are false, so a `NaN` position never collides. -/
noncomputable def fcheck_collision (w : WallCollider) (position : FVec3) (radius : ℝ) :
    Bool :=
  if flt (some w.height) position.y then false
  else
    (fle (some 0) (w.fdot_product position) &&
      flt (w.fdistance position) (some radius)) ||
    (flt (w.fdot_product position) (some 0) &&
      flt (w.fdistance position) (some (radius + w.thickness)))

/-- NaN-aware `WallCollider::resolve_collision` (src/collision.rs:92-158);
the push along `normalize(distance_vec)` turns into the all-`NaN` vector at
horizontal distance zero, as in f32. -/
noncomputable def fresolve_collision (w : WallCollider) (position : FVec3) (radius : ℝ) :
    FVec3 :=
  if w.fcheck_collision position radius then
    if fle (some 0) (w.fdot_product position) then
      if flt (w.fdistance position) (some radius) then
        fvadd position (fvmul (fnormalize (w.fdistance_vec position))
          (fsub (some radius) (w.fdistance position)))
      else position
    else
      if flt (w.fdistance position) (some (radius + w.thickness)) then
        fvadd position (fvmul (fnormalize (w.fdistance_vec position))
          (fsub (some (radius + w.thickness)) (w.fdistance position)))
      else position
  else position

lemma fpoint_to_start_lift (w : WallCollider) (p : Vec3) :
    w.fpoint_to_start (liftV p) = liftV (w.point_to_start p) := rfl

/-- On finite positions with a nondegenerate segment, the NaN-aware `t`
agrees with the real-model `t`. -/
lemma ftClamped_lift (w : WallCollider) (p : Vec3)
    (hL : (w.wall_vec).length_squared ≠ 0) :
    w.ftClamped (liftV p) = some (w.tClamped p) := by
  unfold ftClamped tClamped
  rw [fpoint_to_start_lift, fdot_lift, fdiv_some _ hL, fclamp_some]

lemma fclosest_point_lift (w : WallCollider) (p : Vec3)
    (hL : (w.wall_vec).length_squared ≠ 0) :
    w.fclosest_point (liftV p) = liftV (w.closest_point p) := by
  unfold fclosest_point closest_point
  rw [ftClamped_lift w p hL]
  rfl

lemma fdistance_vec_lift (w : WallCollider) (p : Vec3)
    (hL : (w.wall_vec).length_squared ≠ 0) :
    w.fdistance_vec (liftV p) = liftV (w.distance_vec p) := by
  unfold fdistance_vec distance_vec
  rw [fclosest_point_lift w p hL]
  rfl

lemma fdistance_lift (w : WallCollider) (p : Vec3)
    (hL : (w.wall_vec).length_squared ≠ 0) :
    w.fdistance (liftV p) = some (w.distance p) := by
  unfold fdistance distance
  rw [fdistance_vec_lift w p hL, flength_lift]

lemma fdot_product_lift (w : WallCollider) (p : Vec3)
    (hL : (w.wall_vec).length_squared ≠ 0) :
    w.fdot_product (liftV p) = some (w.dot_product p) := by
  unfold fdot_product dot_product
  rw [fdistance_vec_lift w p hL, fdot_lift]

/-- On finite positions with a nondegenerate segment, the NaN-aware check
agrees with the real-model check. -/
lemma fcheck_iff (w : WallCollider) (p : Vec3) (r : ℝ)
    (hL : (w.wall_vec).length_squared ≠ 0) :
    w.fcheck_collision (liftV p) r = true ↔ w.check_collision p r := by
  unfold fcheck_collision check_collision
  rw [fdistance_lift w p hL, fdot_product_lift w p hL]
  by_cases hy : w.height < p.y
  · simp [hy, not_le.mpr hy]
  · simp only [liftV_y, flt_some, fle_some, decide_eq_true_eq, if_neg, hy, decide_eq_false
      (not_lt.mp hy).not_lt]
    simp [not_lt.mp hy]

/-- On finite positions with a nondegenerate segment and nonzero horizontal
distance, the NaN-aware resolve agrees with the real-model resolve. -/
lemma fresolve_lift (w : WallCollider) (p : Vec3) (r : ℝ)
    (hL : (w.wall_vec).length_squared ≠ 0) (hd : w.distance p ≠ 0) :
    w.fresolve_collision (liftV p) r = liftV (w.resolve_collision p r) := by
  have hdlen : (w.distance_vec p).length ≠ 0 := hd
  unfold fresolve_collision resolve_collision
  rw [fdistance_lift w p hL, fdot_product_lift w p hL, fdistance_vec_lift w p hL,
    fnormalize_lift _ hdlen]
  by_cases hc : w.check_collision p r
  · have hb : w.fcheck_collision (liftV p) r = true := (fcheck_iff w p r hL).mpr hc
    rw [hb, if_pos hc]
    simp only [if_true]
    by_cases hdot : 0 ≤ w.dot_product p
    · rw [if_pos hdot]
      simp only [fle_some, decide_eq_true_eq, hdot, if_true]
      by_cases hlt : w.distance p < r
      · rw [if_pos hlt]
        simp only [flt_some, decide_eq_true_eq, hlt, if_true]
        rfl
      · rw [if_neg hlt]
        simp only [flt_some, decide_eq_true_eq, hlt, if_false]
    · rw [if_neg hdot]
      simp only [fle_some, decide_eq_true_eq, hdot, if_false]
      by_cases hlt : w.distance p < r + w.thickness
      · rw [if_pos hlt]
        simp only [flt_some, decide_eq_true_eq, hlt, if_true]
        rfl
      · rw [if_neg hlt]
        simp only [flt_some, decide_eq_true_eq, hlt, if_false]
  · have hb : w.fcheck_collision (liftV p) r = false := by
      rcases Bool.eq_false_or_eq_true (w.fcheck_collision (liftV p) r) with h | h
      · exact absurd ((fcheck_iff w p r hL).mp h) hc
      · exact h
    rw [hb, if_neg hc]
    simp

/-- A position all of whose components are `NaN` never collides: every f32
comparison in the routine is false. -/
lemma fcheck_nanvec (w : WallCollider) (r : ℝ) :
    w.fcheck_collision ⟨none, none, none⟩ r = false := by
  have hdv : w.fdistance_vec ⟨none, none, none⟩ = ⟨none, some 0, none⟩ := by
    unfold fdistance_vec fclosest_point ftClamped fpoint_to_start
    simp [fdot]
  unfold fcheck_collision fdot_product fdistance
  rw [hdv]
  simp [fdot, flength, flength_squared]

/-- For a horizontally degenerate segment (`wall_length_squared = 0`) the
projection divides zero by zero (`NaN`), which poisons the whole check: no
finite position ever collides with such a collider. -/
lemma fcheck_of_degenerate (w : WallCollider) (p : Vec3) (r : ℝ)
    (hL : (w.wall_vec).length_squared = 0) :
    w.fcheck_collision (liftV p) r = false := by
  have ht : w.ftClamped (liftV p) = none := by
    unfold ftClamped
    rw [fpoint_to_start_lift, fdot_lift, hL, fdiv_zero_den, fclamp_none]
  have hdv : w.fdistance_vec (liftV p) = ⟨none, some 0, none⟩ := by
    unfold fdistance_vec fclosest_point
    rw [ht]
    simp
  unfold fcheck_collision fdot_product fdistance
  rw [hdv]
  simp [fdot, flength, flength_squared]

/-- At horizontal distance zero the colliding point is pushed along
`normalize(0)`: the result is the all-`NaN` position, as in f32. -/
lemma fresolve_nan_of_distance_zero (w : WallCollider) (p : Vec3) (r : ℝ)
    (hL : (w.wall_vec).length_squared ≠ 0) (hc : w.check_collision p r)
    (hd : w.distance p = 0) :
    w.fresolve_collision (liftV p) r = ⟨none, none, none⟩ := by
  have hdv : w.distance_vec p = ⟨0, 0, 0⟩ := w.distance_vec_eq_zero p hd
  have hdot0 : w.dot_product p = 0 := by
    unfold dot_product
    rw [hdv]
    simp [Vec3.dot]
  have hr : 0 < r := by
    rcases hc.2 with ⟨_, hlt⟩ | ⟨hneg, _⟩
    · rw [hd] at hlt
      exact hlt
    · rw [hdot0] at hneg
      exact absurd hneg (lt_irrefl 0)
  have hb : w.fcheck_collision (liftV p) r = true := (fcheck_iff w p r hL).mpr hc
  have hn : fnormalize (liftV ⟨0, 0, 0⟩) = ⟨none, none, none⟩ := by
    have hlen : flength (liftV ⟨0, 0, 0⟩) = some 0 := by
      rw [flength_lift]
      unfold Vec3.length Vec3.length_squared
      norm_num
    unfold fnormalize
    rw [hlen]
    ext <;> simp
  unfold fresolve_collision
  rw [fdistance_lift w p hL, fdot_product_lift w p hL, fdistance_vec_lift w p hL, hb,
    hdot0, hd, hdv, hn]
  simp [hr, fvadd, fvmul]

end WallCollider

/-- Claim C1: for every wall collider, every finite position `P` and every
radius `r`, after `resolve_collision(P, r)` is applied against that
collider, `check_collision` of the returned position with the same radius
against the same collider is false.  Proved over the NaN-aware embedding
`fcheck_collision`/`fresolve_collision`, because at horizontal distance
zero the code's correction direction is `normalize(0)`: the resolved
position is then all-`NaN` and no f32 comparison reports a collision; at
nonzero distance the push is exact and the resolved point clears the wall. -/
theorem claim1_no_penetration (w : WallCollider) (p : Vec3) (r : ℝ) :
    w.fcheck_collision (w.fresolve_collision (liftV p) r) r = false := by
  by_cases hL : (w.wall_vec).length_squared = 0
  · have h1 := w.fcheck_of_degenerate p r hL
    have h2 : w.fresolve_collision (liftV p) r = liftV p := by
      unfold WallCollider.fresolve_collision
      rw [h1]
      simp
    rw [h2]
    exact h1
  · by_cases hd : w.distance p = 0
    · by_cases hc : w.check_collision p r
      · rw [w.fresolve_nan_of_distance_zero p r hL hc hd]
        exact w.fcheck_nanvec r
      · have hb : w.fcheck_collision (liftV p) r = false := by
          rcases Bool.eq_false_or_eq_true (w.fcheck_collision (liftV p) r) with h | h
          · exact absurd ((WallCollider.fcheck_iff w p r hL).mp h) hc
          · exact h
        have h2 : w.fresolve_collision (liftV p) r = liftV p := by
          unfold WallCollider.fresolve_collision
          rw [hb]
          simp
        rw [h2]
        exact hb
    · rw [w.fresolve_lift p r hL hd]
      have hq := w.not_check_resolve p r hd
      rcases Bool.eq_false_or_eq_true
          (w.fcheck_collision (liftV (w.resolve_collision p r)) r) with h | h
      · exact absurd ((WallCollider.fcheck_iff w (w.resolve_collision p r) r hL).mp h) hq
      · exact h

/-! ## Claim C9: the per-frame position invariant on the NaN-aware layer -/

/-- The `y` component of the pushed position: either the query's own `y`
(the correction's `y` is `0 / length = 0`) or the `NaN` error value (when
the length is zero or the position was already `NaN`). -/
lemma fmoved_y (w : WallCollider) (p : FVec3) (k : FVal) :
    (fvadd p (fvmul (fnormalize (w.fdistance_vec p)) k)).y = p.y ∨
      (fvadd p (fvmul (fnormalize (w.fdistance_vec p)) k)).y = none := by
  have hy : (w.fdistance_vec p).y = some 0 := rfl
  simp only [fvadd, fvmul, fnormalize, hy]
  rcases hflen : flength (w.fdistance_vec p) with _ | d
  · simp
  · by_cases hd0 : d = 0
    · subst hd0
      rw [fdiv_zero_den]
      simp
    · rw [fdiv_some 0 hd0]
      rcases k with _ | kv
      · simp
      · rcases hp : p.y with _ | py
        · simp
        · left
          simp [zero_div]

/-- NaN-aware resolution either keeps the `y` coordinate or yields `NaN`. -/
lemma fresolve_y (w : WallCollider) (p : FVec3) (r : ℝ) :
    (w.fresolve_collision p r).y = p.y ∨ (w.fresolve_collision p r).y = none := by
  unfold WallCollider.fresolve_collision
  split
  · split
    · split
      · exact fmoved_y w p _
      · exact Or.inl rfl
    · split
      · exact fmoved_y w p _
      · exact Or.inl rfl
  · exact Or.inl rfl

/-- Folding NaN-aware resolution over a collider list either keeps the
starting `y` coordinate or yields `NaN`. -/
lemma foldl_fresolve_y (r : ℝ) (l : List WallCollider) (p : FVec3) :
    (l.foldl (fun q c => c.fresolve_collision q r) p).y = p.y ∨
      (l.foldl (fun q c => c.fresolve_collision q r) p).y = none := by
  induction l generalizing p with
  | nil => exact Or.inl rfl
  | cons c l ih =>
    simp only [List.foldl_cons]
    rcases ih (c.fresolve_collision p r) with h | h
    · rcases fresolve_y c p r with h2 | h2
      · exact Or.inl (h.trans h2)
      · exact Or.inr (h.trans h2)
    · exact Or.inr h

/-- The position part of `State::update` (src/main.rs:747-761) on the
NaN-aware layer: run the camera controller (NaN-free for a finite camera
state), then fold `resolve_collision` with `player_radius = 0.5` over the
collider list; the result is written back to `camera.position`. -/
noncomputable def updatePositionF (colliders : List WallCollider)
    (ctrl : CameraController) (cam : Camera) (dt : ℝ) : FVec3 :=
  colliders.foldl (fun p c => c.fresolve_collision p (1 / 2))
    (liftV ((ctrl.update_camera cam dt).1.position))

/-- A controller with no keys held, centered sticks and no mouse motion. -/
noncomputable def ctrlIdle : CameraController :=
  ⟨0, 0, false, false, false, false, 0, 0, 0, 0, 0, 0⟩

/-- A camera standing exactly on the scenario wall's segment line. -/
noncomputable def camDegenerate : Camera := ⟨⟨1, 2, 0⟩, 0, 0⟩

lemma update_camera_idle :
    (ctrlIdle.update_camera camDegenerate 0).1.position = ⟨1, 2, 0⟩ := by
  unfold CameraController.update_camera ctrlIdle camDegenerate floorClamp
  norm_num

/-- Claim C9, counterexample: a frame whose camera stands exactly on the
scenario wall's segment line.  The floor clamp inside `update_camera` has
already run (the position is finite with `y = 2 ≥ 1`), yet the resolution
pass pushes along `normalize(0)` and the position written back to the
camera is the all-`NaN` vector: its `y` is the `NaN` error value and the
claimed `y ≥ 1` invariant fails — no floor clamp runs after resolution. -/
theorem claim9_counterexample :
    (updatePositionF [wallA] ctrlIdle camDegenerate 0).y = none ∧
      fle (some 1) ((updatePositionF [wallA] ctrlIdle camDegenerate 0).y) = false := by
  have h1 : updatePositionF [wallA] ctrlIdle camDegenerate 0
      = wallA.fresolve_collision (liftV ⟨1, 2, 0⟩) (1 / 2) := by
    unfold updatePositionF
    rw [update_camera_idle]
    rfl
  rw [h1, wallA.fresolve_nan_of_distance_zero ⟨1, 2, 0⟩ (1 / 2) WallCollider.wallA_lsq
    WallCollider.wallA_check3 WallCollider.wallA_d3]
  exact ⟨rfl, rfl⟩

/-- Claim C9, amended: the floor clamp runs inside `update_camera`, before
the sequential collision resolution — not after it; the resolution pass
either preserves the clamped `y` exactly or produces the `NaN` error value
(only via the degenerate zero-distance push).  Hence in every frame the
position written back to the camera has `y ≥ 1` unless a degenerate
resolution occurred, in which case its `y` is `NaN`. -/
theorem claim9_amended (colliders : List WallCollider) (ctrl : CameraController)
    (cam : Camera) (dt : ℝ) :
    (updatePositionF colliders ctrl cam dt).y = none ∨
      ∃ a : ℝ, (updatePositionF colliders ctrl cam dt).y = some a ∧ 1 ≤ a := by
  unfold updatePositionF
  rcases foldl_fresolve_y (1 / 2) colliders
      (liftV ((ctrl.update_camera cam dt).1.position)) with h | h
  · right
    exact ⟨((ctrl.update_camera cam dt).1.position).y, by rw [h]; rfl,
      update_camera_y ctrl cam dt⟩
  · left
    exact h

end Shooting
